import Mathlib

/-!
Verification of the command-assembly and result-parsing pipeline of the
`ripgrepjs` library (`src/dist/index.js`).

The development shallowly embeds:
* the JSON values produced by `JSON.parse` together with a strict JSON
  parser (`Json.parse`) modelling the platform's `JSON.parse` (returning
  `none` where `JSON.parse` would throw a `SyntaxError`);
* the `RipGrep` class state (`pattern`, `path`, `rgPath`, `output`,
  `command`) and its methods `asString`, `asJson`, `asObject`, `run`,
  plus the 89 chainable option methods, modelled as the inductive
  `RgOpt` applied by `RipGrep.opt`;
* the external synchronous process facility (`execSync`) as a function
  from the command line to a `ProcOutcome`; the `console.log` side
  channel of `run`'s `catch` block is returned as a list of printed
  strings.
-/

/-- JSON values as produced by `JSON.parse`.  Numeric literals are kept
as their source lexeme (no claim inspects numeric magnitudes).  Object
fields are kept in source order; duplicate keys are resolved last-wins
at lookup time, as `JSON.parse` does. -/
inductive Json where
  | null
  | bool (b : Bool)
  | num (lexeme : String)
  | str (s : String)
  | arr (elems : List Json)
  | obj (fields : List (String × Json))

/-- `true` exactly on the JSON value `null`. -/
def Json.isNull : Json → Bool
  | .null => true
  | _ => false

/-- JSON insignificant whitespace (RFC 8259). -/
def jsonWs (c : Char) : Bool :=
  c = ' ' || c = '\t' || c = '\n' || c = '\r'

/-- Drop leading JSON whitespace. -/
def skipWs (cs : List Char) : List Char := cs.dropWhile jsonWs

/-- Value of one hex digit. -/
def hexVal (c : Char) : Option Nat :=
  if '0' ≤ c ∧ c ≤ '9' then some (c.toNat - '0'.toNat)
  else if 'a' ≤ c ∧ c ≤ 'f' then some (c.toNat - 'a'.toNat + 10)
  else if 'A' ≤ c ∧ c ≤ 'F' then some (c.toNat - 'A'.toNat + 10)
  else none

/-- Parse exactly four hex digits (the `\uXXXX` escape payload). -/
def parseHex4 : List Char → Option (Nat × List Char)
  | a :: b :: c :: d :: rest => do
    let va ← hexVal a
    let vb ← hexVal b
    let vc ← hexVal c
    let vd ← hexVal d
    pure (va * 4096 + vb * 256 + vc * 16 + vd, rest)
  | _ => none

/-- Parse the body of a JSON string after the opening quote, returning
the decoded string and the input after the closing quote.  Surrogate
pairs are not combined (each `\uXXXX` becomes one scalar), which is
irrelevant to every property proved below. -/
def parseStringBody : Nat → List Char → List Char → Option (String × List Char)
  | 0, _, _ => none
  | _, [], _ => none
  | fuel + 1, c :: rest, acc =>
    if c = '"' then some (String.mk acc.reverse, rest)
    else if c = '\\' then
      match rest with
      | [] => none
      | e :: rest2 =>
        if e = '"' then parseStringBody fuel rest2 ('"' :: acc)
        else if e = '\\' then parseStringBody fuel rest2 ('\\' :: acc)
        else if e = '/' then parseStringBody fuel rest2 ('/' :: acc)
        else if e = 'b' then parseStringBody fuel rest2 ('\x08' :: acc)
        else if e = 'f' then parseStringBody fuel rest2 ('\x0c' :: acc)
        else if e = 'n' then parseStringBody fuel rest2 ('\n' :: acc)
        else if e = 'r' then parseStringBody fuel rest2 ('\r' :: acc)
        else if e = 't' then parseStringBody fuel rest2 ('\t' :: acc)
        else if e = 'u' then
          match parseHex4 rest2 with
          | some (n, rest3) => parseStringBody fuel rest3 (Char.ofNat n :: acc)
          | none => none
        else none
    else if c.toNat < 32 then none
    else parseStringBody fuel rest (c :: acc)

/-- Split off a maximal run of decimal digits. -/
def digitSpan (cs : List Char) : List Char × List Char :=
  (cs.takeWhile Char.isDigit, cs.dropWhile Char.isDigit)

/-- Parse a JSON number literal (strict RFC 8259 grammar), returning its
lexeme. -/
def parseNumber (cs : List Char) : Option (String × List Char) :=
  let (neg, cs1) :=
    match cs with
    | '-' :: r => (true, r)
    | _ => (false, cs)
  let (ip, cs2) := digitSpan cs1
  if ip.isEmpty then none
  else if ip.head? == some '0' && ip.length != 1 then none
  else
    let fracStep : Option (List Char × List Char) :=
      match cs2 with
      | '.' :: r =>
        let (d, r2) := digitSpan r
        if d.isEmpty then none else some ('.' :: d, r2)
      | _ => some ([], cs2)
    match fracStep with
    | none => none
    | some (fp, cs3) =>
      let expStep : Option (List Char × List Char) :=
        match cs3 with
        | e :: r =>
          if e = 'e' ∨ e = 'E' then
            let (sgn, r1) :=
              match r with
              | '+' :: r2 => (['+'], r2)
              | '-' :: r2 => (['-'], r2)
              | _ => ([], r)
            let (d, r2) := digitSpan r1
            if d.isEmpty then none else some (e :: (sgn ++ d), r2)
          else some ([], cs3)
        | [] => some ([], cs3)
      match expStep with
      | none => none
      | some (ep, cs4) =>
        some (String.mk ((if neg then ['-'] else []) ++ ip ++ fp ++ ep), cs4)

mutual

/-- Parse one JSON value (fuel-indexed recursive descent). -/
def parseValue : Nat → List Char → Option (Json × List Char)
  | 0, _ => none
  | fuel + 1, cs =>
    match skipWs cs with
    | [] => none
    | c :: rest =>
      if c = 'n' then
        match rest with
        | 'u' :: 'l' :: 'l' :: r => some (.null, r)
        | _ => none
      else if c = 't' then
        match rest with
        | 'r' :: 'u' :: 'e' :: r => some (.bool true, r)
        | _ => none
      else if c = 'f' then
        match rest with
        | 'a' :: 'l' :: 's' :: 'e' :: r => some (.bool false, r)
        | _ => none
      else if c = '"' then
        match parseStringBody (rest.length + 1) rest [] with
        | some (s, r) => some (.str s, r)
        | none => none
      else if c = '[' then
        match skipWs rest with
        | ']' :: r => some (.arr [], r)
        | _ => parseElements fuel rest []
      else if c = '\x7b' then
        match skipWs rest with
        | '\x7d' :: r => some (.obj [], r)
        | _ => parseMembers fuel rest []
      else
        match parseNumber (c :: rest) with
        | some (lex, r) => some (.num lex, r)
        | none => none

/-- Parse the remaining elements of a non-empty JSON array. -/
def parseElements : Nat → List Char → List Json → Option (Json × List Char)
  | 0, _, _ => none
  | fuel + 1, cs, acc =>
    match parseValue fuel cs with
    | none => none
    | some (v, r) =>
      match skipWs r with
      | ',' :: r2 => parseElements fuel r2 (v :: acc)
      | ']' :: r2 => some (.arr (v :: acc).reverse, r2)
      | _ => none

/-- Parse the remaining members of a non-empty JSON object. -/
def parseMembers : Nat → List Char → List (String × Json) → Option (Json × List Char)
  | 0, _, _ => none
  | fuel + 1, cs, acc =>
    match skipWs cs with
    | '"' :: r =>
      match parseStringBody (r.length + 1) r [] with
      | some (k, r2) =>
        match skipWs r2 with
        | ':' :: r3 =>
          match parseValue fuel r3 with
          | none => none
          | some (v, r4) =>
            match skipWs r4 with
            | ',' :: r5 => parseMembers fuel r5 ((k, v) :: acc)
            | '\x7d' :: r5 => some (.obj ((k, v) :: acc).reverse, r5)
            | _ => none
        | _ => none
      | none => none
    | _ => none

end

/-- Model of `JSON.parse`: `none` stands for a thrown `SyntaxError`.
The fuel `2 * s.length + 2` dominates the recursion depth, since at
least one input character is consumed for every two fuel units spent. -/
def Json.parse (s : String) : Option Json :=
  match parseValue (2 * s.length + 2) s.data with
  | some (j, rest) => if (skipWs rest).isEmpty then some j else none
  | none => none

example : Json.parse "" = none := rfl
example : Json.parse "null" = some Json.null := rfl
example : Json.parse "not json" = none := rfl
example : Json.parse "\x7b\"type\":\"match\"\x7d" =
    some (Json.obj [("type", Json.str "match")]) := rfl
example : Json.parse "[1, true]" =
    some (Json.arr [Json.num "1", Json.bool true]) := rfl

/-! ## JavaScript string primitives used by the library -/

/-- The ASCII fragment of the whitespace set stripped by JavaScript's
`String.prototype.trim`. -/
def isJsSpace (c : Char) : Bool :=
  c = ' ' || c = '\t' || c = '\n' || c = '\r' || c = '\x0b' || c = '\x0c'

/-- Model of `String.prototype.trim`: strip leading and trailing
whitespace. -/
def jsTrim (s : String) : String :=
  String.mk (((s.data.dropWhile isJsSpace).reverse.dropWhile isJsSpace).reverse)

/-- Split a character list on a separator character, JavaScript
`String.prototype.split` style: the result is never empty, and splitting
the empty input yields `[[]]`. -/
def splitCh (c : Char) : List Char → List (List Char)
  | [] => [[]]
  | x :: xs =>
    if x = c then [] :: splitCh c xs
    else
      match splitCh c xs with
      | [] => [[x]]
      | t :: ts => (x :: t) :: ts

/-- Model of `s.split('\n')`. -/
def splitNl (s : String) : List String := (splitCh '\n' s.data).map String.mk

/-- Model of `Array.prototype.join(' ')`. -/
def joinSp : List String → String
  | [] => ""
  | [x] => x
  | x :: xs => x ++ " " ++ joinSp xs

/-- The whitespace-delimited units of an assembled command line
(the spec's glossary notion of "token" over the joined string). -/
def wsTokens (s : String) : List String :=
  ((splitCh ' ' s.data).filter (fun t => !t.isEmpty)).map String.mk

example : splitNl "" = [""] := rfl
example : splitNl "a\nb\n" = ["a", "b", ""] := rfl
example : jsTrim "  a b \n" = "a b" := rfl
example : joinSp ["rg", "--json", "\"a\"", "/tmp"] = "rg --json \"a\" /tmp" := rfl
example : wsTokens "rg --type-list  " = ["rg", "--type-list"] := rfl

/-! ## The `RipGrep` class state and its output/run methods -/

/-- Failures thrown by the decoding views:
* `invalidState` models `throw new Error('The json() method needs to be
  added')`;
* `parseError line` models the `SyntaxError` thrown by `JSON.parse` on
  `line`;
* `typeError line` models the `TypeError` thrown by reading `.type` on
  the `null` value parsed from `line`. -/
inductive RgError where
  | invalidState
  | parseError (line : String)
  | typeError (line : String)
deriving DecidableEq, Repr

/-- `true` exactly on `RgError.parseError`. -/
def RgError.isParse : RgError → Bool
  | .parseError _ => true
  | _ => false

/-- The mutable state of one `RipGrep` instance (`src/dist/index.js`,
constructor at lines 1660-1665). -/
structure RipGrep where
  pattern : String
  path : String
  rgPath : String
  output : String
  command : List String
deriving DecidableEq, Repr

/-- The constructor: `this.pattern = `"${pattern}"``;
`this.path = path`; `this.rgPath = rgPath`; `this.output = ''`;
`this.command = [this.rgPath]`.  The source's default argument
`rgPath = 'rg'` is applied explicitly at call sites below. -/
def RipGrep.new (pattern path rgPath : String) : RipGrep :=
  { pattern := "\"" ++ pattern ++ "\""
    path := path
    rgPath := rgPath
    output := ""
    command := [rgPath] }

/-- `asString()`: returns `this.output` unmodified. -/
def RipGrep.asString (st : RipGrep) : String := st.output

/-- The `type` property read `data.type` of the filter callbacks, as an
optional string: `some s` exactly when the parsed value is an object
whose `"type"` field (last occurrence wins, as in `JSON.parse`) is the
string `s`.  Any other shape compares unequal to `'match'` in the
source.  The thrown `TypeError` on `null` is handled by the caller
`matchKeepStep`. -/
def jsonTypeField : Json → Option String
  | .obj fields =>
    match fields.reverse.find? (fun kv => kv.1 == "type") with
    | some kv =>
      match kv.2 with
      | .str s => some s
      | _ => none
    | none => none
  | _ => none

/-- One evaluation of the filter callback
`(match) => { let data = JSON.parse(match); if (data.type === 'match') { return match; } }`
shared verbatim by `asObject` (lines 35-40) and `asJson` (lines 53-58):
`JSON.parse` failure throws; reading `.type` on `null` throws; otherwise
the element is retained iff the callback's returned value is truthy,
i.e. iff `data.type === 'match'` and the line is a non-empty string. -/
def matchKeepStep (l : String) : Except RgError Bool :=
  match Json.parse l with
  | none => .error (.parseError l)
  | some .null => .error (.typeError l)
  | some j => .ok (jsonTypeField j == some "match" && l != "")

/-- `Array.prototype.filter` with the (possibly throwing) callback
`matchKeepStep`, evaluated left to right. -/
def matchFilter : List String → Except RgError (List String)
  | [] => .ok []
  | l :: rest =>
    match matchKeepStep l with
    | .error e => .error e
    | .ok keep =>
      match matchFilter rest with
      | .error e => .error e
      | .ok tail => .ok (if keep then l :: tail else tail)

/-- `Array.prototype.map` with the callback `(a) => JSON.parse(a)`
(line 41), which throws on unparsable input. -/
def parseAll : List String → Except RgError (List Json)
  | [] => .ok []
  | a :: rest =>
    match Json.parse a with
    | none => .error (.parseError a)
    | some j =>
      match parseAll rest with
      | .error e => .error e
      | .ok tail => .ok (j :: tail)

/-- `asJson()` (lines 49-60): throws unless `this.command` contains the
element `'--json'` (`Array.prototype.includes`); otherwise
`this.output.trim().split('\n')` filtered by the match callback,
returning the original line strings. -/
def RipGrep.asJson (st : RipGrep) : Except RgError (List String) :=
  if "--json" ∈ st.command then matchFilter (splitNl (jsTrim st.output))
  else .error .invalidState

/-- `asObject()` (lines 28-43): same precondition and same filter as
`asJson`, followed by `.map((a) => JSON.parse(a))`. -/
def RipGrep.asObject (st : RipGrep) : Except RgError (List Json) :=
  if "--json" ∈ st.command then
    match matchFilter (splitNl (jsTrim st.output)) with
    | .error e => .error e
    | .ok kept => parseAll kept
  else .error .invalidState

/-- What one synchronous child-process invocation produces, as consumed
by `run()`: whether `execSync` returned normally (`success`), the
captured standard output (returned on success; reachable as
`error.stdout` on failure) and the captured standard error. -/
structure ProcOutcome where
  success : Bool
  stdout : String
  stderr : String

/-- `this.command` after the two pushes at lines 67-68:
`this.command.push(this.pattern); this.command.push(this.path)`. -/
def RipGrep.finalCommand (st : RipGrep) : List String :=
  st.command ++ [st.pattern, st.path]

/-- `let rgCommand = this.command.join(' ')` (line 69), after the two
pushes. -/
def RipGrep.runCmd (st : RipGrep) : String := joinSp st.finalCommand

/-- `run()` (lines 66-77).  The external world is the function `env`
from the executed command line to a `ProcOutcome`.  On success
`this.output` is set to the captured stdout; on failure the `catch`
block runs `console.log(error.stdout)` — modelled by the returned list
of side-channel prints — and `this.output` is left untouched.  The
function is total because the `catch` swallows every execution
failure; `return this` is the first component. -/
def RipGrep.run (st : RipGrep) (env : String → ProcOutcome) :
    RipGrep × List String :=
  let r := env st.runCmd
  if r.success then
    ({ st with command := st.finalCommand, output := r.stdout }, [])
  else
    ({ st with command := st.finalCommand }, [r.stdout])

/-! ## The option accumulator: one constructor per chainable option
method of the source, carrying the method's parameters. -/

/-- The 89 option methods of the `RipGrep` class, in source order.
Numeric parameters (TypeScript `number`) are modelled as `Nat`; string
parameters as `String`.  The source method `null` is compiled to the
property name `null_`; `quite` and the `--dfa-size-limir` spelling are
the source's own. -/
inductive RgOpt where
  | afterContext (num : Nat)
  | autoHybridRegex
  | beforeContext (num : Nat)
  | binary
  | blockBuffered
  | byteOffset
  | caseSensitive
  | color (when : String)
  | colors (colorSpec : String)
  | column
  | context (num : Nat)
  | contextSeparator (separator : String)
  | count
  | countMatches
  | crlf
  | debug
  | dfaSizeLimit (num_suffix : String)
  | encoding (encoding : String)
  | file (pattern : String)
  | files
  | filesWithMatches
  | filesWithoutMatch
  | fixedStrings
  | follow
  | glob (pattern : String)
  | heading
  | hidden
  | iglob (iglob : String)
  | ignoreCase
  | ignoreFile (path : String)
  | ignoreFileCaseInsensitive
  | invertMatch
  | json
  | lineBuffered
  | lineNumber
  | lineRegexp
  | maxColumns (num : Nat)
  | maxColumnsPreview
  | maxCount (num : Nat)
  | maxDepth (num : Nat)
  | maxFilesize (num_suffix : String)
  | mmap
  | multiline
  | multilineDotall
  | noConfig
  | noFilename
  | noHeading
  | noIgnore
  | noIgnoreDot
  | noIgnoreGlobal
  | noIgnoreMessages
  | noIgnoreParent
  | noIgnoreVcs
  | noLineNumber
  | noMessages
  | noMmap
  | noPcre2Unicode
  | null_
  | nullData
  | oneFileSystem
  | onlyMatching
  | passthru
  | pathSeparator (seperator : String)
  | pcre2
  | pcre2Version
  | pre (command : String)
  | preGlob (glob : String)
  | pretty
  | quite
  | regexSizeLimit (num_suffix : String)
  | regexp (pattern : String)
  | replace (text : String)
  | searchZip
  | smartCase
  | sort (by_ : String)
  | sortr (by_ : String)
  | status
  | text
  | threads (num : Nat)
  | trim
  | type (type : String)
  | typeAdd (type_spec : String)
  | typeClear (type : String)
  | typeList
  | typeNot (type : String)
  | unrestricted
  | vimgrep
  | wordRegexp
  | withFilename

/-- `true` exactly on the JSON-enabling option method `json()`. -/
def RgOpt.isJson : RgOpt → Bool
  | .json => true
  | _ => false

/-- The single element each option method pushes onto `this.command`,
transcribed from the template literal of the source method. -/
def optToken : RgOpt → String
  | .afterContext num => "--after-context " ++ toString num
  | .autoHybridRegex => "--auto-hybrid-regex"
  | .beforeContext num => "--before-context " ++ toString num
  | .binary => "--binary"
  | .blockBuffered => "--block-buffered"
  | .byteOffset => "--byte-offset"
  | .caseSensitive => "--case-sensitive"
  | .color when_ => "--color " ++ when_
  | .colors colorSpec => "--colors \"" ++ colorSpec ++ "\""
  | .column => "--column"
  | .context num => "--context " ++ toString num
  | .contextSeparator separator => "--context-separator \"" ++ separator ++ "\""
  | .count => "--count"
  | .countMatches => "--count-matches"
  | .crlf => "--crlf"
  | .debug => "--debug"
  | .dfaSizeLimit num_suffix => "--dfa-size-limir \"" ++ num_suffix ++ "\""
  | .encoding encoding => "--encoding \"" ++ encoding ++ "\""
  | .file pattern => "--file \"" ++ pattern ++ "\""
  | .files => "--files"
  | .filesWithMatches => "--files-with-matches"
  | .filesWithoutMatch => "--files-without-match"
  | .fixedStrings => "--fixed-strings"
  | .follow => "--follow"
  | .glob pattern => "--glob \"" ++ pattern ++ "\""
  | .heading => "--heading"
  | .hidden => "--hidden"
  | .iglob iglob => "--iglob \"" ++ iglob ++ "\""
  | .ignoreCase => "--ignore-case"
  | .ignoreFile path => "--ignore-file \"" ++ path ++ "\""
  | .ignoreFileCaseInsensitive => "--ignore-file-case-insensitive"
  | .invertMatch => "--invert-match"
  | .json => "--json"
  | .lineBuffered => "--line-buffered"
  | .lineNumber => "--line-number"
  | .lineRegexp => "--line-regexp"
  | .maxColumns num => "--max-columns " ++ toString num
  | .maxColumnsPreview => "--max-columns-preview"
  | .maxCount num => "--max-count " ++ toString num
  | .maxDepth num => "--max-depth " ++ toString num
  | .maxFilesize num_suffix => "--max-filesize \"" ++ num_suffix ++ "\""
  | .mmap => "--mmap"
  | .multiline => "--multiline"
  | .multilineDotall => "--multiline-dotall"
  | .noConfig => "--no-config"
  | .noFilename => "--no-filename"
  | .noHeading => "--no-heading"
  | .noIgnore => "--no-ignore"
  | .noIgnoreDot => "--no-ignore-dot"
  | .noIgnoreGlobal => "--no-ignore-global"
  | .noIgnoreMessages => "--no-ignore-messages"
  | .noIgnoreParent => "--no-ignore-parent"
  | .noIgnoreVcs => "--no-ignore-vcs"
  | .noLineNumber => "--no-line-number"
  | .noMessages => "--no-messages"
  | .noMmap => "--no-mmap"
  | .noPcre2Unicode => "--no-pcre2-unicode"
  | .null_ => "--null"
  | .nullData => "--null-data"
  | .oneFileSystem => "--one-file-system"
  | .onlyMatching => "--only-matching"
  | .passthru => "--passthru"
  | .pathSeparator seperator => "--path-separator \"" ++ seperator ++ "\""
  | .pcre2 => "--pcre2"
  | .pcre2Version => "--pcre2-version"
  | .pre command => "--pre \"" ++ command ++ "\""
  | .preGlob glob => "--pre-glob \"" ++ glob ++ "\""
  | .pretty => "--pretty"
  | .quite => "--quite"
  | .regexSizeLimit num_suffix => "--regex-size-limit \"" ++ num_suffix ++ "\""
  | .regexp pattern => "--regexp \"" ++ pattern ++ "\""
  | .replace text => "--replace \"" ++ text ++ "\""
  | .searchZip => "--search-zip"
  | .smartCase => "--smart-case"
  | .sort by_ => "--sort " ++ by_
  | .sortr by_ => "--sortr " ++ by_
  | .status => "--stats"
  | .text => "--text"
  | .threads num => "--threads " ++ toString num
  | .trim => "--trim"
  | .type type => "--type \"" ++ type ++ "\""
  | .typeAdd type_spec => "--type-add \"" ++ type_spec ++ "\""
  | .typeClear type => "--type-clear \"" ++ type ++ "\""
  | .typeList => "--type-list"
  | .typeNot type => "--type-not \"" ++ type ++ "\""
  | .unrestricted => "--unrestricted"
  | .vimgrep => "--vim-grep"
  | .wordRegexp => "--word-regexp"
  | .withFilename => "--with-filename"

/-- `pcre2Version()` (lines 1222-1227) and `typeList()` (lines
1590-1595) are the two option methods that additionally run
`this.pattern = ''; this.path = ''` before their push. -/
def clearsSearchTarget : RgOpt → Bool
  | .pcre2Version => true
  | .typeList => true
  | _ => false

/-- One option-method call: clear the search target when the method does
so, then push the method's single token; the source then returns
`this`, which state passing renders as the returned value. -/
def RipGrep.opt (st : RipGrep) (o : RgOpt) : RipGrep :=
  let st' := if clearsSearchTarget o then { st with pattern := "", path := "" } else st
  { st' with command := st'.command ++ [optToken o] }

/-- A `RipGrep` instance reachable by constructing and then chaining any
sequence of option-method calls. -/
def buildRg (pattern path rgPath : String) (opts : List RgOpt) : RipGrep :=
  opts.foldl RipGrep.opt (RipGrep.new pattern path rgPath)

example :
    (buildRg "hello" "/tmp/fixtures" "rg" [.withFilename, .lineNumber]).command =
      ["rg", "--with-filename", "--line-number"] := rfl
example :
    ((buildRg "hello" "/tmp/fixtures" "rg" [.withFilename, .lineNumber]).run
      (fun _ => ⟨true, "out", ""⟩)).1.runCmd =
      "rg --with-filename --line-number \"hello\" /tmp/fixtures \"hello\" /tmp/fixtures" := rfl
example :
    (buildRg "hello" "/tmp/fixtures" "rg" [.withFilename, .lineNumber]).runCmd =
      "rg --with-filename --line-number \"hello\" /tmp/fixtures" := rfl
example : (buildRg "pat" "/tmp" "rg" [.pcre2Version]).runCmd = "rg --pcre2-version  " := rfl

/-- The spec-side retention predicate of the decoding views, following
the specification's words: a line is retained exactly when its parsed
`type` field equals `"match"`. -/
def matchKeep (l : String) : Bool :=
  match Json.parse l with
  | some j => jsonTypeField j == some "match"
  | none => false

/-! ## Helper lemmas -/

theorem append_ne_json (s t : String) (hs : ' ' ∈ s.data) :
    s ++ t ≠ "--json" := by
  intro h
  have hmem : ' ' ∈ ("--json" : String).data := by
    rw [← h, String.data_append]
    exact List.mem_append_left _ hs
  exact absurd hmem (by decide)

theorem append3_ne_json (a b c : String) (ha : ' ' ∈ a.data) :
    a ++ b ++ c ≠ "--json" := by
  apply append_ne_json
  rw [String.data_append]
  exact List.mem_append_left _ ha

theorem quoted_ne_json (p : String) : "\"" ++ p ++ "\"" ≠ "--json" := by
  intro h
  have hmem : '"' ∈ ("--json" : String).data := by
    rw [← h, String.data_append, String.data_append]
    exact List.mem_append_left _ (List.mem_append_left _ (by decide))
  exact absurd hmem (by decide)

theorem optToken_ne_json (o : RgOpt) (h : o.isJson = false) :
    optToken o ≠ "--json" := by
  cases o
  case json => simp [RgOpt.isJson] at h
  all_goals
    first
      | exact (by decide)
      | exact append_ne_json _ _ (by decide)
      | exact append3_ne_json _ _ _ (by decide)

theorem splitCh_ne_nil (c : Char) (l : List Char) : splitCh c l ≠ [] := by
  induction l with
  | nil => simp [splitCh]
  | cons x xs ih =>
    simp only [splitCh]
    split
    · simp
    · split
      · simp
      · simp

theorem splitCh_cons (c x : Char) (xs : List Char) :
    splitCh c (x :: xs) =
      if x = c then [] :: splitCh c xs
      else
        match splitCh c xs with
        | [] => [[x]]
        | t :: ts => (x :: t) :: ts := rfl

theorem splitCh_append_sep (c : Char) (l : List Char) :
    splitCh c (l ++ [c]) = splitCh c l ++ [[]] := by
  induction l with
  | nil => simp [splitCh]
  | cons x xs ih =>
    rw [List.cons_append, splitCh_cons, splitCh_cons, ih]
    by_cases hx : x = c
    · rw [if_pos hx, if_pos hx]
      rfl
    · rw [if_neg hx, if_neg hx]
      cases h : splitCh c xs with
      | nil => exact absurd h (splitCh_ne_nil c xs)
      | cons t ts => simp

theorem wsTokens_append_space (s : String) :
    wsTokens (s ++ " ") = wsTokens s := by
  unfold wsTokens
  rw [String.data_append]
  show ((splitCh ' ' (s.data ++ [' '])).filter _).map _ = _
  rw [splitCh_append_sep]
  simp

theorem joinSp_cons_cons (x y : String) (ys : List String) :
    joinSp (x :: y :: ys) = x ++ " " ++ joinSp (y :: ys) := rfl

theorem joinSp_append_last (l : List String) (a : String) (h : l ≠ []) :
    joinSp (l ++ [a]) = joinSp l ++ " " ++ a := by
  induction l with
  | nil => exact absurd rfl h
  | cons x xs ih =>
    cases xs with
    | nil => simp [joinSp]
    | cons y ys =>
      have ih' := ih (by simp)
      simp only [List.cons_append] at ih' ⊢
      rw [joinSp_cons_cons x y (ys ++ [a]), joinSp_cons_cons x y ys, ih']
      simp [String.append_assoc]

theorem opt_command (st : RipGrep) (o : RgOpt) :
    (st.opt o).command = st.command ++ [optToken o] := by
  unfold RipGrep.opt
  split <;> rfl

theorem opt_rgPath (st : RipGrep) (o : RgOpt) : (st.opt o).rgPath = st.rgPath := by
  unfold RipGrep.opt
  split <;> rfl

theorem opt_output (st : RipGrep) (o : RgOpt) : (st.opt o).output = st.output := by
  unfold RipGrep.opt
  split <;> rfl

theorem opt_pattern (st : RipGrep) (o : RgOpt) :
    (st.opt o).pattern = if clearsSearchTarget o then "" else st.pattern := by
  unfold RipGrep.opt
  split <;> rfl

theorem opt_path (st : RipGrep) (o : RgOpt) :
    (st.opt o).path = if clearsSearchTarget o then "" else st.path := by
  unfold RipGrep.opt
  split <;> rfl

theorem foldOpts_command (opts : List RgOpt) (st : RipGrep) :
    (opts.foldl RipGrep.opt st).command = st.command ++ opts.map optToken := by
  induction opts generalizing st with
  | nil => simp
  | cons o rest ih =>
    rw [List.foldl_cons, List.map_cons, ih, opt_command, List.append_assoc]
    rfl

theorem foldOpts_output (opts : List RgOpt) (st : RipGrep) :
    (opts.foldl RipGrep.opt st).output = st.output := by
  induction opts generalizing st with
  | nil => rfl
  | cons o rest ih => rw [List.foldl_cons, ih, opt_output]

theorem foldOpts_rgPath (opts : List RgOpt) (st : RipGrep) :
    (opts.foldl RipGrep.opt st).rgPath = st.rgPath := by
  induction opts generalizing st with
  | nil => rfl
  | cons o rest ih => rw [List.foldl_cons, ih, opt_rgPath]

theorem foldOpts_target_of_none (opts : List RgOpt) (st : RipGrep)
    (h : ∀ o ∈ opts, clearsSearchTarget o = false) :
    (opts.foldl RipGrep.opt st).pattern = st.pattern ∧
    (opts.foldl RipGrep.opt st).path = st.path := by
  induction opts generalizing st with
  | nil => exact ⟨rfl, rfl⟩
  | cons o rest ih =>
    have ho : clearsSearchTarget o = false := h o (by simp)
    have := ih (st.opt o) (fun o' ho' => h o' (by simp [ho']))
    rw [List.foldl_cons]
    rw [this.1, this.2, opt_pattern, opt_path, ho]
    exact ⟨rfl, rfl⟩

theorem foldOpts_target_or (opts : List RgOpt) (st : RipGrep) :
    ((opts.foldl RipGrep.opt st).pattern = st.pattern ∨
      (opts.foldl RipGrep.opt st).pattern = "") ∧
    ((opts.foldl RipGrep.opt st).path = st.path ∨
      (opts.foldl RipGrep.opt st).path = "") := by
  induction opts generalizing st with
  | nil => exact ⟨Or.inl rfl, Or.inl rfl⟩
  | cons o rest ih =>
    rw [List.foldl_cons]
    obtain ⟨h1, h2⟩ := ih (st.opt o)
    constructor
    · rcases h1 with h1 | h1
      · rw [h1, opt_pattern]
        by_cases hc : clearsSearchTarget o = true
        · rw [if_pos hc]
          exact Or.inr rfl
        · rw [if_neg hc]
          exact Or.inl rfl
      · exact Or.inr h1
    · rcases h2 with h2 | h2
      · rw [h2, opt_path]
        by_cases hc : clearsSearchTarget o = true
        · rw [if_pos hc]
          exact Or.inr rfl
        · rw [if_neg hc]
          exact Or.inl rfl
      · exact Or.inr h2

theorem foldOpts_target_empty (opts : List RgOpt) (st : RipGrep)
    (hp : st.pattern = "") (hpa : st.path = "") :
    (opts.foldl RipGrep.opt st).pattern = "" ∧
    (opts.foldl RipGrep.opt st).path = "" := by
  induction opts generalizing st with
  | nil => exact ⟨hp, hpa⟩
  | cons o rest ih =>
    rw [List.foldl_cons]
    apply ih
    · rw [opt_pattern, hp]
      split <;> rfl
    · rw [opt_path, hpa]
      split <;> rfl

theorem foldOpts_target_of_clear (opts : List RgOpt) (st : RipGrep)
    (h : ∃ o ∈ opts, clearsSearchTarget o = true) :
    (opts.foldl RipGrep.opt st).pattern = "" ∧
    (opts.foldl RipGrep.opt st).path = "" := by
  induction opts generalizing st with
  | nil => simp at h
  | cons o rest ih =>
    rw [List.foldl_cons]
    obtain ⟨o', ho', hc⟩ := h
    rcases List.mem_cons.mp ho' with rfl | hmem
    · apply foldOpts_target_empty
      · rw [opt_pattern, hc]
        rfl
      · rw [opt_path, hc]
        rfl
    · exact ih (st.opt o) ⟨o', hmem, hc⟩

theorem buildRg_command (p pa rg : String) (opts : List RgOpt) :
    (buildRg p pa rg opts).command = rg :: opts.map optToken := by
  unfold buildRg
  rw [foldOpts_command]
  rfl

theorem buildRg_output (p pa rg : String) (opts : List RgOpt) :
    (buildRg p pa rg opts).output = "" := by
  unfold buildRg
  rw [foldOpts_output]
  rfl

theorem buildRg_rgPath (p pa rg : String) (opts : List RgOpt) :
    (buildRg p pa rg opts).rgPath = rg := by
  unfold buildRg
  rw [foldOpts_rgPath]
  rfl

theorem json_not_mem_buildRg (p pa rg : String) (opts : List RgOpt)
    (hopts : opts.all (fun o => !o.isJson) = true) (hrg : rg ≠ "--json") :
    "--json" ∉ (buildRg p pa rg opts).command := by
  rw [buildRg_command]
  intro hmem
  rcases List.mem_cons.mp hmem with h | h
  · exact hrg h.symm
  · rcases List.mem_map.mp h with ⟨o, ho, htok⟩
    have hj : o.isJson = false := by
      have := List.all_eq_true.mp hopts o ho
      simpa using this
    exact optToken_ne_json o hj htok

theorem Json.parse_empty : Json.parse "" = none := rfl

theorem parse_ne_empty (l : String) (j : Json) (hp : Json.parse l = some j) :
    l ≠ "" := by
  intro he
  rw [he, Json.parse_empty] at hp
  exact Option.noConfusion hp

theorem parse_some_of_getD (l : String)
    (h : ((Json.parse l).getD Json.null).isNull = false) :
    ∃ j, Json.parse l = some j ∧ j.isNull = false := by
  cases hp : Json.parse l with
  | none =>
    rw [hp] at h
    simp [Option.getD, Json.isNull] at h
  | some j =>
    rw [hp] at h
    exact ⟨j, rfl, h⟩

theorem matchKeepStep_of_parse (l : String) (j : Json)
    (hp : Json.parse l = some j) (hn : j.isNull = false) :
    matchKeepStep l = .ok (jsonTypeField j == some "match" && l != "") := by
  unfold matchKeepStep
  rw [hp]
  cases j with
  | null => simp [Json.isNull] at hn
  | bool b => rfl
  | num s => rfl
  | str s => rfl
  | arr xs => rfl
  | obj fs => rfl

theorem matchKeepStep_none (l : String) (h : Json.parse l = none) :
    matchKeepStep l = .error (.parseError l) := by
  unfold matchKeepStep
  rw [h]

theorem matchKeepStep_null (l : String) (h : Json.parse l = some .null) :
    matchKeepStep l = .error (.typeError l) := by
  unfold matchKeepStep
  rw [h]

theorem matchFilter_of_wellformed (ls : List String)
    (h : ∀ l ∈ ls, ((Json.parse l).getD Json.null).isNull = false) :
    matchFilter ls = .ok (ls.filter matchKeep) := by
  induction ls with
  | nil => rfl
  | cons l rest ih =>
    obtain ⟨j, hp, hn⟩ := parse_some_of_getD l (h l (by simp))
    have hne : (l != "") = true := by
      simp [parse_ne_empty l j hp]
    have hkeep : matchKeep l = (jsonTypeField j == some "match") := by
      unfold matchKeep
      rw [hp]
    unfold matchFilter
    rw [matchKeepStep_of_parse l j hp hn, ih (fun l' hl' => h l' (by simp [hl']))]
    rw [hne, Bool.and_true, List.filter_cons, hkeep]

theorem matchKeepStep_ok_parse (l : String) (b : Bool)
    (h : matchKeepStep l = .ok b) : ∃ j, Json.parse l = some j := by
  cases hp : Json.parse l with
  | none =>
    rw [matchKeepStep_none l hp] at h
    exact Except.noConfusion h
  | some j => exact ⟨j, rfl⟩

theorem matchFilter_ok_parses (ls js : List String)
    (h : matchFilter ls = .ok js) : ∀ s ∈ js, ∃ j, Json.parse s = some j := by
  induction ls generalizing js with
  | nil =>
    unfold matchFilter at h
    have : js = [] := (Except.ok.inj h).symm
    subst this
    simp
  | cons l rest ih =>
    unfold matchFilter at h
    cases hstep : matchKeepStep l with
    | error e =>
      rw [hstep] at h
      exact Except.noConfusion h
    | ok keep =>
      rw [hstep] at h
      cases hrec : matchFilter rest with
      | error e =>
        rw [hrec] at h
        exact Except.noConfusion h
      | ok tail =>
        rw [hrec] at h
        have hjs : js = if keep then l :: tail else tail := (Except.ok.inj h).symm
        subst hjs
        intro s hs
        cases keep with
        | false =>
          rw [if_neg (by simp)] at hs
          exact ih tail hrec s hs
        | true =>
          rw [if_pos rfl] at hs
          rcases List.mem_cons.mp hs with rfl | hs
          · exact matchKeepStep_ok_parse s true hstep
          · exact ih tail hrec s hs

theorem parseAll_of_parses (js : List String)
    (h : ∀ s ∈ js, ∃ j, Json.parse s = some j) :
    parseAll js = .ok (js.map (fun s => (Json.parse s).getD Json.null)) := by
  induction js with
  | nil => rfl
  | cons a rest ih =>
    obtain ⟨j, hp⟩ := h a (by simp)
    unfold parseAll
    rw [hp, ih (fun s hs => h s (by simp [hs]))]
    simp [hp]

theorem matchFilter_error_first (pre : List String) (bad : String)
    (rest : List String) (hb : Json.parse bad = none)
    (hpre : ∀ l ∈ pre, ((Json.parse l).getD Json.null).isNull = false) :
    matchFilter (pre ++ bad :: rest) = .error (.parseError bad) := by
  induction pre with
  | nil =>
    rw [List.nil_append]
    unfold matchFilter
    rw [matchKeepStep_none bad hb]
  | cons l pre' ih =>
    obtain ⟨j, hp, hn⟩ := parse_some_of_getD l (hpre l (by simp))
    rw [List.cons_append]
    unfold matchFilter
    rw [matchKeepStep_of_parse l j hp hn,
      ih (fun l' hl' => hpre l' (by simp [hl']))]

theorem asJson_of_mem (st : RipGrep) (h : "--json" ∈ st.command) :
    st.asJson = matchFilter (splitNl (jsTrim st.output)) := by
  unfold RipGrep.asJson
  rw [if_pos h]

theorem asJson_of_not_mem (st : RipGrep) (h : "--json" ∉ st.command) :
    st.asJson = .error .invalidState := by
  unfold RipGrep.asJson
  rw [if_neg h]

theorem asObject_of_mem (st : RipGrep) (h : "--json" ∈ st.command) :
    st.asObject =
      match matchFilter (splitNl (jsTrim st.output)) with
      | .error e => .error e
      | .ok kept => parseAll kept := by
  unfold RipGrep.asObject
  rw [if_pos h]

theorem asObject_of_not_mem (st : RipGrep) (h : "--json" ∉ st.command) :
    st.asObject = .error .invalidState := by
  unfold RipGrep.asObject
  rw [if_neg h]

theorem run_eq_success (st : RipGrep) (env : String → ProcOutcome)
    (h : (env st.runCmd).success = true) :
    st.run env =
      ({ st with command := st.finalCommand, output := (env st.runCmd).stdout },
        []) := by
  simp [RipGrep.run, h]

theorem run_eq_failure (st : RipGrep) (env : String → ProcOutcome)
    (h : (env st.runCmd).success = false) :
    st.run env =
      ({ st with command := st.finalCommand }, [(env st.runCmd).stdout]) := by
  simp [RipGrep.run, h]

theorem run_command (st : RipGrep) (env : String → ProcOutcome) :
    (st.run env).1.command = st.finalCommand := by
  unfold RipGrep.run
  cases h : (env st.runCmd).success <;> simp [h]

theorem empty_ne_json : ("" : String) ≠ "--json" := by decide

theorem buildRg_pattern_or (p pa rg : String) (opts : List RgOpt) :
    ((buildRg p pa rg opts).pattern = "\"" ++ p ++ "\"" ∨
      (buildRg p pa rg opts).pattern = "") ∧
    ((buildRg p pa rg opts).path = pa ∨ (buildRg p pa rg opts).path = "") :=
  foldOpts_target_or opts (RipGrep.new p pa rg)

theorem json_not_mem_run (p pa rg : String) (opts : List RgOpt)
    (env : String → ProcOutcome)
    (hopts : opts.all (fun o => !o.isJson) = true)
    (hrg : rg ≠ "--json") (hpa : pa ≠ "--json") :
    "--json" ∉ ((buildRg p pa rg opts).run env).1.command := by
  rw [run_command]
  unfold RipGrep.finalCommand
  intro hmem
  rcases List.mem_append.mp hmem with h | h
  · exact json_not_mem_buildRg p pa rg opts hopts hrg h
  · simp only [List.mem_cons, List.not_mem_nil, or_false] at h
    rcases h with h | h
    · rcases (buildRg_pattern_or p pa rg opts).1 with h1 | h1 <;> rw [h1] at h
      · exact quoted_ne_json p h.symm
      · exact empty_ne_json h.symm
    · rcases (buildRg_pattern_or p pa rg opts).2 with h1 | h1 <;> rw [h1] at h
      · exact hpa h.symm
      · exact empty_ne_json h.symm

theorem wsTokens_runCmd_of_cleared (st : RipGrep) (hp : st.pattern = "")
    (hpa : st.path = "") (hc : st.command ≠ []) :
    wsTokens st.runCmd = wsTokens (joinSp st.command) := by
  unfold RipGrep.runCmd RipGrep.finalCommand
  rw [hp, hpa]
  have h1 : st.command ++ ["", ""] = (st.command ++ [""]) ++ [""] := by
    rw [List.append_assoc]
    rfl
  rw [h1, joinSp_append_last (st.command ++ [""]) "" (by simp),
    joinSp_append_last st.command "" hc, String.append_empty,
    String.append_empty, wsTokens_append_space, wsTokens_append_space]

/-! ## The claims -/

/-- C1 (corrected; counterexample): the claim quantifies over every
constructor pattern and root path, but a root path that is the literal
string `--json` is itself pushed onto the token sequence by `run()`, so
after `run()` the `Array.includes('--json')` precondition check passes
and `asJson()` fails with a JSON parse failure on the empty output, not
with the documented `InvalidStateError`-class failure, even though the
`json()` option was never invoked. -/
theorem c1_counterexample :
    (((RipGrep.new "a" "--json" "rg").run (fun _ => ⟨false, "", ""⟩)).1.asJson =
      Except.error (RgError.parseError "")) ∧
    RgError.parseError "" ≠ RgError.invalidState :=
  ⟨rfl, by decide⟩

/-- C1 (amended): for every constructor pattern, every executable path
other than the literal `--json`, every root path other than the literal
`--json`, and every sequence of option calls that never includes
`json()`, calling `asJson()` or `asObject()` — before or after `run()`,
whatever the process outcome — fails with the `InvalidStateError`-class
failure, because no element of the token sequence equals `--json`. -/
theorem c1_amended (pattern path rgPath : String) (opts : List RgOpt)
    (env : String → ProcOutcome)
    (hopts : opts.all (fun o => !o.isJson) = true)
    (hrg : rgPath ≠ "--json") (hpath : path ≠ "--json") :
    (buildRg pattern path rgPath opts).asJson =
      Except.error RgError.invalidState ∧
    (buildRg pattern path rgPath opts).asObject =
      Except.error RgError.invalidState ∧
    ((buildRg pattern path rgPath opts).run env).1.asJson =
      Except.error RgError.invalidState ∧
    ((buildRg pattern path rgPath opts).run env).1.asObject =
      Except.error RgError.invalidState := by
  have h1 := json_not_mem_buildRg pattern path rgPath opts hopts hrg
  have h2 := json_not_mem_run pattern path rgPath opts env hopts hrg hpath
  exact ⟨asJson_of_not_mem _ h1, asObject_of_not_mem _ h1,
    asJson_of_not_mem _ h2, asObject_of_not_mem _ h2⟩

/-- Witness for C1 (amended) at a concrete instance. -/
theorem c1_amended_witness :
    ([RgOpt.withFilename].all (fun o => !o.isJson) = true ∧
      ("rg" : String) ≠ "--json" ∧ ("/tmp" : String) ≠ "--json") ∧
    ((buildRg "a" "/tmp" "rg" [RgOpt.withFilename]).asJson =
        Except.error RgError.invalidState ∧
      (buildRg "a" "/tmp" "rg" [RgOpt.withFilename]).asObject =
        Except.error RgError.invalidState ∧
      ((buildRg "a" "/tmp" "rg" [RgOpt.withFilename]).run
          (fun _ => ⟨true, "x", ""⟩)).1.asJson =
        Except.error RgError.invalidState ∧
      ((buildRg "a" "/tmp" "rg" [RgOpt.withFilename]).run
          (fun _ => ⟨true, "x", ""⟩)).1.asObject =
        Except.error RgError.invalidState) :=
  ⟨⟨by decide, by decide, by decide⟩,
    c1_amended "a" "/tmp" "rg" [RgOpt.withFilename] (fun _ => ⟨true, "x", ""⟩)
      (by decide) (by decide) (by decide)⟩

/-- C2 (confirmed): if `pcre2Version()` or `typeList()` is invoked
before `run()`, the pattern and path are cleared to the empty string,
and the finalized command line contains no pattern token and no
root-path token: its whitespace-delimited units are exactly those of the
pre-run option line, regardless of prior (or later) option calls. -/
theorem c2_informational_modes (pattern path rgPath : String)
    (opts : List RgOpt)
    (h : RgOpt.pcre2Version ∈ opts ∨ RgOpt.typeList ∈ opts) :
    (buildRg pattern path rgPath opts).pattern = "" ∧
    (buildRg pattern path rgPath opts).path = "" ∧
    wsTokens (buildRg pattern path rgPath opts).runCmd =
      wsTokens (joinSp (buildRg pattern path rgPath opts).command) := by
  have hex : ∃ o ∈ opts, clearsSearchTarget o = true := by
    rcases h with h | h
    · exact ⟨RgOpt.pcre2Version, h, rfl⟩
    · exact ⟨RgOpt.typeList, h, rfl⟩
  have hcl := foldOpts_target_of_clear opts (RipGrep.new pattern path rgPath) hex
  have hp : (buildRg pattern path rgPath opts).pattern = "" := hcl.1
  have hpa : (buildRg pattern path rgPath opts).path = "" := hcl.2
  refine ⟨hp, hpa, ?_⟩
  apply wsTokens_runCmd_of_cleared _ hp hpa
  rw [buildRg_command]
  simp

/-- Witness for C2 at a concrete instance: a prior option call followed
by `pcre2Version()`. -/
theorem c2_informational_modes_witness :
    (RgOpt.pcre2Version ∈ [RgOpt.lineNumber, RgOpt.pcre2Version] ∨
      RgOpt.typeList ∈ [RgOpt.lineNumber, RgOpt.pcre2Version]) ∧
    ((buildRg "a" "/tmp" "rg" [RgOpt.lineNumber, RgOpt.pcre2Version]).pattern = "" ∧
      (buildRg "a" "/tmp" "rg" [RgOpt.lineNumber, RgOpt.pcre2Version]).path = "" ∧
      wsTokens (buildRg "a" "/tmp" "rg" [RgOpt.lineNumber, RgOpt.pcre2Version]).runCmd =
        wsTokens (joinSp
          (buildRg "a" "/tmp" "rg" [RgOpt.lineNumber, RgOpt.pcre2Version]).command)) :=
  ⟨Or.inl (by simp), c2_informational_modes "a" "/tmp" "rg"
    [RgOpt.lineNumber, RgOpt.pcre2Version] (Or.inl (by simp))⟩

/-- C3 (corrected; counterexample): on process failure the `catch` block
runs `console.log(error.stdout)`: the side channel receives the captured
standard output, not the captured standard error the claim (and spec)
names. -/
theorem c3_counterexample :
    ((RipGrep.new "a" "/tmp" "rg").run
        (fun _ => ⟨false, "captured stdout", "captured stderr"⟩)).2 =
      ["captured stdout"] ∧
    ("captured stdout" : String) ≠ "captured stderr" :=
  ⟨rfl, by decide⟩

/-- C3 (amended): whenever the spawned process fails, `run()` prints the
process's captured standard output (`error.stdout`) to the side channel;
no failure information is returned to the caller beyond the unchanged
(empty) result. -/
theorem c3_amended (st : RipGrep) (env : String → ProcOutcome)
    (h : (env st.runCmd).success = false) :
    (st.run env).2 = [(env st.runCmd).stdout] ∧
    (st.run env).1.output = st.output := by
  rw [run_eq_failure st env h]
  exact ⟨rfl, rfl⟩

/-- Witness for C3 (amended) at a concrete instance. -/
theorem c3_amended_witness :
    (((fun _ => ⟨false, "o", "e"⟩ : String → ProcOutcome)
        (RipGrep.new "a" "/tmp" "rg").runCmd).success = false) ∧
    (((RipGrep.new "a" "/tmp" "rg").run (fun _ => ⟨false, "o", "e"⟩)).2 =
        [((fun _ => ⟨false, "o", "e"⟩ : String → ProcOutcome)
          (RipGrep.new "a" "/tmp" "rg").runCmd).stdout] ∧
      ((RipGrep.new "a" "/tmp" "rg").run (fun _ => ⟨false, "o", "e"⟩)).1.output =
        (RipGrep.new "a" "/tmp" "rg").output) :=
  ⟨rfl, c3_amended (RipGrep.new "a" "/tmp" "rg") (fun _ => ⟨false, "o", "e"⟩) rfl⟩

/-- C4 (confirmed): for every reachable pre-run state and every failing
process outcome, `run()` swallows the failure (the embedding is a total
function: the `catch` block prints and falls through to `return this`),
returns the instance - whose token sequence gained only the
pattern/path pushes - and `RawOutput` remains the initial empty
string. -/
theorem c4_run_swallows_failure (pattern path rgPath : String)
    (opts : List RgOpt) (env : String → ProcOutcome)
    (h : (env (buildRg pattern path rgPath opts).runCmd).success = false) :
    (buildRg pattern path rgPath opts).run env =
      ({ buildRg pattern path rgPath opts with
          command := (buildRg pattern path rgPath opts).finalCommand },
        [(env (buildRg pattern path rgPath opts).runCmd).stdout]) ∧
    ((buildRg pattern path rgPath opts).run env).1.output = "" := by
  refine ⟨run_eq_failure _ env h, ?_⟩
  rw [run_eq_failure _ env h]
  exact buildRg_output pattern path rgPath opts

/-- Witness for C4 at a concrete instance. -/
theorem c4_run_swallows_failure_witness :
    (((fun _ => ⟨false, "boom", "err"⟩ : String → ProcOutcome)
        (buildRg "a" "/tmp" "rg" [RgOpt.lineNumber]).runCmd).success = false) ∧
    ((buildRg "a" "/tmp" "rg" [RgOpt.lineNumber]).run
        (fun _ => ⟨false, "boom", "err"⟩) =
      ({ buildRg "a" "/tmp" "rg" [RgOpt.lineNumber] with
          command := (buildRg "a" "/tmp" "rg" [RgOpt.lineNumber]).finalCommand },
        [((fun _ => ⟨false, "boom", "err"⟩ : String → ProcOutcome)
          (buildRg "a" "/tmp" "rg" [RgOpt.lineNumber]).runCmd).stdout]) ∧
      ((buildRg "a" "/tmp" "rg" [RgOpt.lineNumber]).run
          (fun _ => ⟨false, "boom", "err"⟩)).1.output = "") :=
  ⟨rfl, c4_run_swallows_failure "a" "/tmp" "rg" [RgOpt.lineNumber]
    (fun _ => ⟨false, "boom", "err"⟩) rfl⟩

/-- C5 (corrected; counterexample): the claim quantifies over every
`RawOutput` whose lines all parse as JSON, but the line `null` parses as
JSON while the filter callback's `data.type` read then throws a
`TypeError`, so `asJson()` aborts instead of returning the filtered
(here: empty) sequence. -/
theorem c5_counterexample :
    (((RipGrep.new "a" "/tmp" "rg").opt RgOpt.json).run
        (fun _ => ⟨true, "null", ""⟩)).1.asJson =
      Except.error (RgError.typeError "null") ∧
    (Except.error (RgError.typeError "null") :
      Except RgError (List String)).isOk = false :=
  ⟨rfl, rfl⟩

/-- C5 (amended): for every `RawOutput` whose lines (after trimming and
splitting on newlines) all parse as JSON values other than `null`,
`asJson()` returns exactly the original unparsed text of the lines
whose parsed `type` field equals `"match"`, in order. -/
theorem c5_amended (st : RipGrep)
    (hjson : "--json" ∈ st.command)
    (hwf : ∀ l ∈ splitNl (jsTrim st.output),
      ((Json.parse l).getD Json.null).isNull = false) :
    st.asJson =
      Except.ok ((splitNl (jsTrim st.output)).filter matchKeep) := by
  rw [asJson_of_mem st hjson, matchFilter_of_wellformed _ hwf]

/-- Witness for C5 (amended): a begin record, a match record and a
summary record; only the match record's original text is returned. -/
theorem c5_amended_witness :
    ("--json" ∈ (((RipGrep.new "a" "/tmp" "rg").opt RgOpt.json).run
        (fun _ => ⟨true,
          "\x7b\"type\":\"begin\"\x7d\n\x7b\"type\":\"match\"\x7d\n\x7b\"type\":\"summary\"\x7d",
          ""⟩)).1.command ∧
      (∀ l ∈ splitNl (jsTrim (((RipGrep.new "a" "/tmp" "rg").opt RgOpt.json).run
          (fun _ => ⟨true,
            "\x7b\"type\":\"begin\"\x7d\n\x7b\"type\":\"match\"\x7d\n\x7b\"type\":\"summary\"\x7d",
            ""⟩)).1.output),
        ((Json.parse l).getD Json.null).isNull = false)) ∧
    (((RipGrep.new "a" "/tmp" "rg").opt RgOpt.json).run
        (fun _ => ⟨true,
          "\x7b\"type\":\"begin\"\x7d\n\x7b\"type\":\"match\"\x7d\n\x7b\"type\":\"summary\"\x7d",
          ""⟩)).1.asJson =
      Except.ok ((splitNl (jsTrim (((RipGrep.new "a" "/tmp" "rg").opt RgOpt.json).run
          (fun _ => ⟨true,
            "\x7b\"type\":\"begin\"\x7d\n\x7b\"type\":\"match\"\x7d\n\x7b\"type\":\"summary\"\x7d",
            ""⟩)).1.output)).filter matchKeep) :=
  ⟨⟨by decide, by decide⟩,
    c5_amended _ (by decide) (by decide)⟩

/-- C6 (confirmed, strengthened to every state): `asObject()` agrees
with `asJson()` unconditionally - it fails with the very same error
whenever `asJson()` fails, and otherwise retains lines at exactly the
same ordinal positions and returns, for each retained line, the parsed
record of exactly the string `asJson()` returns at that position. -/
theorem c6_views_agree (st : RipGrep) :
    st.asObject =
      Except.map (fun js => js.map (fun s => (Json.parse s).getD Json.null))
        st.asJson := by
  by_cases h : "--json" ∈ st.command
  · rw [asJson_of_mem st h, asObject_of_mem st h]
    cases hmf : matchFilter (splitNl (jsTrim st.output)) with
    | error e => rfl
    | ok js =>
      have hpa := parseAll_of_parses js (matchFilter_ok_parses _ js hmf)
      show parseAll js = _
      rw [hpa]
      rfl
  · rw [asJson_of_not_mem st h, asObject_of_not_mem st h]
    rfl

/-- C7 (corrected; counterexample): the claim's output has a line that
is not valid JSON (`not json`), yet the failure that propagates is the
`TypeError` from the earlier `null` line's `data.type` read, not a JSON
parse failure; the parse of the malformed line is never reached. -/
theorem c7_counterexample :
    (((RipGrep.new "a" "/tmp" "rg").opt RgOpt.json).run
        (fun _ => ⟨true, "null\nnot json", ""⟩)).1.asJson =
      Except.error (RgError.typeError "null") ∧
    Json.parse "not json" = none ∧
    RgError.isParse (RgError.typeError "null") = false :=
  ⟨rfl, rfl, rfl⟩

/-- C7 (amended): when some line of `RawOutput` is not valid JSON and
every line before the first such line parses to a non-`null` JSON
value, both `asJson()` and `asObject()` abort the whole decode with the
uncaught parse failure of that line, returning no partial result (a
preceding line parsing to `null` would instead abort earlier with the
member-access `TypeError`). -/
theorem c7_amended (st : RipGrep) (pre : List String) (bad : String)
    (rest : List String)
    (hjson : "--json" ∈ st.command)
    (hsplit : splitNl (jsTrim st.output) = pre ++ bad :: rest)
    (hbad : Json.parse bad = none)
    (hpre : ∀ l ∈ pre, ((Json.parse l).getD Json.null).isNull = false) :
    st.asJson = Except.error (RgError.parseError bad) ∧
    st.asObject = Except.error (RgError.parseError bad) := by
  have hmf : matchFilter (splitNl (jsTrim st.output)) =
      .error (.parseError bad) := by
    rw [hsplit]
    exact matchFilter_error_first pre bad rest hbad hpre
  constructor
  · rw [asJson_of_mem st hjson, hmf]
  · rw [asObject_of_mem st hjson, hmf]

/-- Witness for C7 (amended): one well-formed match record followed by a
malformed line. -/
theorem c7_amended_witness :
    ("--json" ∈ (((RipGrep.new "a" "/tmp" "rg").opt RgOpt.json).run
        (fun _ => ⟨true, "\x7b\"type\":\"match\"\x7d\n@@@", ""⟩)).1.command ∧
      splitNl (jsTrim (((RipGrep.new "a" "/tmp" "rg").opt RgOpt.json).run
          (fun _ => ⟨true, "\x7b\"type\":\"match\"\x7d\n@@@", ""⟩)).1.output) =
        ["\x7b\"type\":\"match\"\x7d"] ++ "@@@" :: [] ∧
      Json.parse "@@@" = none ∧
      (∀ l ∈ ["\x7b\"type\":\"match\"\x7d"],
        ((Json.parse l).getD Json.null).isNull = false)) ∧
    ((((RipGrep.new "a" "/tmp" "rg").opt RgOpt.json).run
        (fun _ => ⟨true, "\x7b\"type\":\"match\"\x7d\n@@@", ""⟩)).1.asJson =
      Except.error (RgError.parseError "@@@") ∧
    (((RipGrep.new "a" "/tmp" "rg").opt RgOpt.json).run
        (fun _ => ⟨true, "\x7b\"type\":\"match\"\x7d\n@@@", ""⟩)).1.asObject =
      Except.error (RgError.parseError "@@@")) :=
  ⟨⟨by decide, rfl, rfl, by decide⟩,
    c7_amended _ ["\x7b\"type\":\"match\"\x7d"] "@@@" [] (by decide) rfl rfl
      (by decide)⟩

/-- C8 (corrected; counterexample): after `pcre2Version()` the stored
pattern and path are the empty string, so the executed command line is
the option line followed by two bare separators - not the claimed shape
with a double-quoted pattern token and a root-path token. -/
theorem c8_counterexample :
    (buildRg "pat" "/tmp" "rg" [RgOpt.pcre2Version]).runCmd =
      "rg --pcre2-version  " ∧
    (buildRg "pat" "/tmp" "rg" [RgOpt.pcre2Version]).runCmd ≠
      joinSp (("rg" :: [RgOpt.pcre2Version].map optToken) ++
        ["\"" ++ "pat" ++ "\"", "/tmp"]) :=
  ⟨rfl, by decide⟩

/-- C8 (amended): for every constructor input and every sequence of
option calls containing neither `pcre2Version()` nor `typeList()`, the
command line executed by `run()` is
`<executable> [option tokens...] "<pattern>" <rootPath>`, space-joined,
with the pattern double-quoted and the root path unquoted. -/
theorem c8_amended (pattern path rgPath : String) (opts : List RgOpt)
    (h : ∀ o ∈ opts, clearsSearchTarget o = false) :
    (buildRg pattern path rgPath opts).runCmd =
      joinSp ((rgPath :: opts.map optToken) ++
        ["\"" ++ pattern ++ "\"", path]) := by
  unfold RipGrep.runCmd RipGrep.finalCommand
  have ht := foldOpts_target_of_none opts (RipGrep.new pattern path rgPath) h
  have hp : (buildRg pattern path rgPath opts).pattern =
      "\"" ++ pattern ++ "\"" := ht.1
  have hpa : (buildRg pattern path rgPath opts).path = path := ht.2
  rw [hp, hpa, buildRg_command]

/-- Witness for C8 (amended), reproducing the spec's sample command
line. -/
theorem c8_amended_witness :
    (∀ o ∈ [RgOpt.withFilename, RgOpt.lineNumber],
      clearsSearchTarget o = false) ∧
    (buildRg "hello" "/tmp/fixtures" "rg"
        [RgOpt.withFilename, RgOpt.lineNumber]).runCmd =
      joinSp (("rg" :: [RgOpt.withFilename, RgOpt.lineNumber].map optToken) ++
        ["\"" ++ "hello" ++ "\"", "/tmp/fixtures"]) :=
  ⟨by decide, c8_amended "hello" "/tmp/fixtures" "rg"
    [RgOpt.withFilename, RgOpt.lineNumber] (by decide)⟩

/-- C9 (confirmed): every option method appends exactly one token to the
token sequence (so the previous sequence is preserved as a prefix and no
token is removed or mutated) and returns the resulting instance; and in
every state reachable by option calls the executable path is token 0 and
the sequence is `rgPath :: optTokens` - independent of the pattern and
root path, which therefore appear only when `run()` pushes them. -/
theorem c9_accumulator_invariants :
    (∀ (o : RgOpt) (st : RipGrep),
      (st.opt o).command = st.command ++ [optToken o]) ∧
    (∀ (pattern path rgPath : String) (opts : List RgOpt),
      (buildRg pattern path rgPath opts).command =
        rgPath :: opts.map optToken) :=
  ⟨fun o st => opt_command st o,
    fun pattern path rgPath opts => buildRg_command pattern path rgPath opts⟩

/-- C10 (confirmed): with the `--json` token present and `RawOutput`
empty (the state after a failed - or never attempted - `run()`),
`asJson()` and `asObject()` throw the `JSON.parse` failure on the single
empty line produced by splitting the trimmed empty output, rather than
returning an empty sequence. -/
theorem c10_empty_output_parse_failure (st : RipGrep)
    (hjson : "--json" ∈ st.command) (hout : st.output = "") :
    st.asJson = Except.error (RgError.parseError "") ∧
    st.asObject = Except.error (RgError.parseError "") := by
  have hmf : matchFilter (splitNl (jsTrim st.output)) =
      .error (.parseError "") := by
    rw [hout]
    rfl
  constructor
  · rw [asJson_of_mem st hjson, hmf]
  · rw [asObject_of_mem st hjson, hmf]

/-- Witness for C10: a `json()`-enabled instance whose `run()` failed,
leaving `RawOutput` empty. -/
theorem c10_empty_output_parse_failure_witness :
    ("--json" ∈ (((RipGrep.new "a" "/tmp" "rg").opt RgOpt.json).run
        (fun _ => ⟨false, "x", "y"⟩)).1.command ∧
      (((RipGrep.new "a" "/tmp" "rg").opt RgOpt.json).run
        (fun _ => ⟨false, "x", "y"⟩)).1.output = "") ∧
    ((((RipGrep.new "a" "/tmp" "rg").opt RgOpt.json).run
        (fun _ => ⟨false, "x", "y"⟩)).1.asJson =
      Except.error (RgError.parseError "") ∧
    (((RipGrep.new "a" "/tmp" "rg").opt RgOpt.json).run
        (fun _ => ⟨false, "x", "y"⟩)).1.asObject =
      Except.error (RgError.parseError "")) :=
  ⟨⟨by decide, rfl⟩,
    c10_empty_output_parse_failure _ (by decide) rfl⟩
